import Mathlib

/-!
Shallow embedding of the Black-Scholes-Merton pricing core of
`blackscholes-rust` (file `src/lib.rs`), over the real numbers.

Modelling conventions:
* every `f64` quantity is modelled as a real number (`ℝ`);
* the not-a-number sentinel used by the code for "unset" derived state is
  modelled by `Option ℝ` with `none` standing for the sentinel, so the
  Rust guard `!self.price.is_finite()` becomes `Option.isNone`;
* the external collaborators living in the (absent) `lets_be_rational`
  module and in the `statrs` crate — the undiscounted pricer `black`, the
  implied-volatility solver, and the standard-normal `cdf` — are
  parameters of the embedding, bundled in the structure `Externals`;
* the IEEE distinction between NaN and the infinities matters for exactly
  one claim (the `lambda` reader, which divides by a possibly-zero
  price); for that reader a small IEEE-style value type `F64` with
  NaN-propagating multiplication and IEEE division is used.
-/

open Real

/-- External collaborators of the core: the standard-normal cumulative
distribution used for `nd1`/`nd2` (the `statrs` crate in the source), and
the `lets_be_rational` pair — the undiscounted forward pricer
`black(forward, strike, vol, maturity, sign)` and the implied-volatility
solver `implied_volatility_from_a_transformed_rational_guess(price,
forward, strike, maturity, sign)`. Their internals are outside the audited
source, so the embedding is parametric in them. -/
structure Externals where
  cdf : ℝ → ℝ
  black : ℝ → ℝ → ℝ → ℝ → ℝ → ℝ
  implied_volatility_from_a_transformed_rational_guess : ℝ → ℝ → ℝ → ℝ → ℝ → ℝ

/-- Embeds `pub const SQRT_2PI: f64 = 2.5066282;` from `src/lib.rs`. -/
def SQRT_2PI : ℝ := 2.5066282

/-- Embeds `pub const DAYS_PER_YEAR: f64 = 365.25;`. -/
def DAYS_PER_YEAR : ℝ := 365.25

/-- Embeds `fn calculate_npdf(x: f64) -> f64 { (-0.5 * x * x).exp() / SQRT_2PI }`. -/
noncomputable def calculate_npdf (x : ℝ) : ℝ :=
  Real.exp (-0.5 * x * x) / SQRT_2PI

/-- Embeds `pub struct OptionInputs`. The six contract parameters are
plain reals; the derived-state fields, initialised to the NaN sentinel by
`new` and populated by the conversion engine, are `Option ℝ` with `none`
for the sentinel. -/
structure OptionInputs where
  is_call : Bool
  s : ℝ
  k : ℝ
  r : ℝ
  q : ℝ
  t : ℝ
  implied_vol : Option ℝ
  price : Option ℝ
  d1 : Option ℝ
  d2 : Option ℝ
  nd1 : Option ℝ
  nd2 : Option ℝ
  nprimed1 : Option ℝ
  nprimed2 : Option ℝ

/-- Embeds `OptionInputs::new`: contract parameters fixed, all derived
state set to the sentinel. -/
def OptionInputs.new (is_call : Bool) (s k r q t : ℝ) : OptionInputs :=
  ⟨is_call, s, k, r, q, t, none, none, none, none, none, none, none, none⟩

/-- Embeds `OptionInputs::sign`: `1.0` for a call, `-1.0` for a put. -/
def OptionInputs.sign (o : OptionInputs) : ℝ :=
  if o.is_call then 1 else -1

/-- Embeds `OptionInputs::dividend_discount`: `(-q * t).exp()`. -/
noncomputable def OptionInputs.dividend_discount (o : OptionInputs) : ℝ :=
  Real.exp (-o.q * o.t)

/-- Embeds `OptionInputs::rate_discount`: `(-r * t).exp()`. -/
noncomputable def OptionInputs.rate_discount (o : OptionInputs) : ℝ :=
  Real.exp (-o.r * o.t)

/-- Embeds `OptionInputs::with_implied_vol`, the forward path of the
conversion engine: store the volatility, derive `d1`, `d2`, `nd1`, `nd2`,
`nprimed1`, `nprimed2`, and derive `price` only when it is still the
sentinel (the Rust guard `!self.price.is_finite()`). -/
noncomputable def OptionInputs.with_implied_vol
    (E : Externals) (o : OptionInputs) (implied_vol : ℝ) : OptionInputs :=
  let numerator := Real.log (o.s / o.k) + (o.r - o.q + implied_vol ^ 2 / 2) * o.t
  let denominator := implied_vol * Real.sqrt o.t
  let d1 := numerator / denominator
  let d2 := d1 - denominator
  let nd1 := E.cdf (o.sign * d1)
  let nd2 := E.cdf (o.sign * d2)
  let nprimed1 := calculate_npdf d1
  let nprimed2 := calculate_npdf d2
  let price :=
    match o.price with
    | none =>
      let forward := o.s * Real.exp ((o.r - o.q) * o.t)
      some (E.black forward o.k implied_vol o.t o.sign * o.rate_discount)
    | some p => some p
  { o with
      implied_vol := some implied_vol
      d1 := some d1
      d2 := some d2
      nd1 := some nd1
      nd2 := some nd2
      nprimed1 := some nprimed1
      nprimed2 := some nprimed2
      price := price }

/-- Embeds `OptionInputs::with_price`, the reverse path: undiscount the
observed price (the argument `p` is shadowed by `p * rate_inv_discount`
exactly as in the source), build the dividend-adjusted forward, call the
external solver, and on a positive candidate store the (shadowed) `p` and
re-enter the forward path; otherwise return `self` unchanged. -/
noncomputable def OptionInputs.with_price
    (E : Externals) (o : OptionInputs) (p : ℝ) : OptionInputs :=
  let rate_inv_discount := Real.exp (o.r * o.t)
  let p := p * rate_inv_discount
  let f := o.s * rate_inv_discount
  let f := f * o.dividend_discount
  let implied_vol :=
    E.implied_volatility_from_a_transformed_rational_guess p f o.k o.t o.sign
  if 0 < implied_vol then
    OptionInputs.with_implied_vol E { o with price := some p } implied_vol
  else
    o

/-- Embeds the reader `OptionInputs::delta`:
`self.sign() * self.nd1 * self.dividend_discount()`, with the NaN
sentinel propagating through the arithmetic. -/
noncomputable def OptionInputs.delta (o : OptionInputs) : Option ℝ :=
  o.nd1.map fun nd1 => o.sign * nd1 * o.dividend_discount

/-- IEEE-style value type used where the NaN / infinity distinction is
observable (the `lambda` reader, which divides by the price). Finite
values carry a real; overflow of finite arithmetic and signed zero are
not modelled. -/
inductive F64 where
  | fin : ℝ → F64
  | pinf : F64
  | ninf : F64
  | nan : F64

/-- IEEE multiplication on `F64`, restricted model: finite times finite
stays finite (overflow ignored), NaN propagates, infinities follow the
sign rules with `∞ * 0 = NaN`. -/
noncomputable def F64.mul : F64 → F64 → F64
  | F64.nan, _ => F64.nan
  | _, F64.nan => F64.nan
  | F64.fin x, F64.fin y => F64.fin (x * y)
  | F64.pinf, F64.pinf => F64.pinf
  | F64.pinf, F64.ninf => F64.ninf
  | F64.ninf, F64.pinf => F64.ninf
  | F64.ninf, F64.ninf => F64.pinf
  | F64.pinf, F64.fin y =>
    if y = 0 then F64.nan else if 0 < y then F64.pinf else F64.ninf
  | F64.ninf, F64.fin y =>
    if y = 0 then F64.nan else if 0 < y then F64.ninf else F64.pinf
  | F64.fin x, F64.pinf =>
    if x = 0 then F64.nan else if 0 < x then F64.pinf else F64.ninf
  | F64.fin x, F64.ninf =>
    if x = 0 then F64.nan else if 0 < x then F64.ninf else F64.pinf

/-- IEEE division on `F64`: division of a nonzero finite value by zero
yields a signed infinity (Rust's `0.0` literal is `+0`), `0/0` yields
NaN, NaN propagates, finite over infinite is zero, infinite over
infinite is NaN. -/
noncomputable def F64.div : F64 → F64 → F64
  | F64.nan, _ => F64.nan
  | _, F64.nan => F64.nan
  | F64.fin x, F64.fin y =>
    if y = 0 then (if x = 0 then F64.nan else if 0 < x then F64.pinf else F64.ninf)
    else F64.fin (x / y)
  | F64.fin _, F64.pinf => F64.fin 0
  | F64.fin _, F64.ninf => F64.fin 0
  | F64.pinf, F64.fin y => if 0 ≤ y then F64.pinf else F64.ninf
  | F64.ninf, F64.fin y => if 0 ≤ y then F64.ninf else F64.pinf
  | F64.pinf, _ => F64.nan
  | F64.ninf, _ => F64.nan

/-- Finiteness predicate on `F64`. -/
def F64.isFinite : F64 → Bool
  | F64.fin _ => true
  | _ => false

/-- Reads the `delta` reader as an `F64`: the sentinel (`none`) is NaN,
any stored `nd1` gives the finite value of the source formula. -/
noncomputable def OptionInputs.deltaF (o : OptionInputs) : F64 :=
  match o.delta with
  | none => F64.nan
  | some d => F64.fin d

/-- Reads the `price` field as an `F64`: the sentinel is NaN. -/
def OptionInputs.priceF (o : OptionInputs) : F64 :=
  match o.price with
  | none => F64.nan
  | some p => F64.fin p

/-- Embeds the reader `OptionInputs::lambda`:
`self.delta() * self.s / self.price`, with IEEE semantics for the
division (the price can be zero or the NaN sentinel). -/
noncomputable def OptionInputs.lambda (o : OptionInputs) : F64 :=
  F64.div (F64.mul o.deltaF (F64.fin o.s)) o.priceF

/-- Modelled from the spec: the `lets_be_rational` module is declared in
`src/lib.rs` but its source is not part of the audited material. Per §6
the solver maps an undiscounted price back to the volatility that the
pricer `black` would need to reproduce it (the glossary defines implied
volatility as "the volatility value that, fed into the forward pricing
formula, reproduces an observed market price"). This predicate states
that idealised contract: on the exact output of `black` at a positive
volatility, the solver recovers that volatility. -/
def SolverInverts (E : Externals) : Prop :=
  ∀ f k v t θ : ℝ, 0 < v →
    E.implied_volatility_from_a_transformed_rational_guess
      (E.black f k v t θ) f k t θ = v

/-- Concrete externals used to instantiate theorems: the cdf is the
constant one-half map (which satisfies the reflection identity of a
symmetric cdf), the pricer echoes the volatility argument and the solver
echoes the price argument, so the solver exactly inverts the pricer. -/
noncomputable def Eecho : Externals :=
  ⟨fun _ => 1 / 2, fun _ _ v _ _ => v, fun p _ _ _ _ => p⟩

/-- Concrete externals whose solver always reports failure (returns 0,
a non-positive candidate volatility). -/
noncomputable def Efail : Externals :=
  ⟨fun _ => 1 / 2, fun _ _ v _ _ => v, fun _ _ _ _ _ => 0⟩

/-- Concrete container whose derived state is populated and whose stored
price is zero (in the Rust source `price` is a public field, so a caller
can put the container in this state directly). -/
def o_zero_price : OptionInputs :=
  ⟨true, 1, 1, 0, 0, 1, some 1, some 0, some 1, some 1, some 1, some 1,
    some 1, some 1⟩

/-- Claim C4: after `with_implied_vol(v)` the cache holds
`d1 = (ln(s/k) + (r - q + v^2/2)*t) / (v*sqrt t)`, `d2 = d1 - v*sqrt t`,
`nd1 = Φ(sign*d1)` and `nd2 = Φ(sign*d2)` where `Φ` is the cdf supplied
by the external normal distribution, and `sign` is `1` for a call and
`-1` for a put. -/
theorem c4_d1_d2_cdf_population (E : Externals) (o : OptionInputs) (v : ℝ) :
    (OptionInputs.with_implied_vol E o v).d1 =
      some ((Real.log (o.s / o.k) + (o.r - o.q + v ^ 2 / 2) * o.t) /
        (v * Real.sqrt o.t)) ∧
    (OptionInputs.with_implied_vol E o v).d2 =
      some ((Real.log (o.s / o.k) + (o.r - o.q + v ^ 2 / 2) * o.t) /
        (v * Real.sqrt o.t) - v * Real.sqrt o.t) ∧
    (OptionInputs.with_implied_vol E o v).nd1 =
      some (E.cdf (o.sign *
        ((Real.log (o.s / o.k) + (o.r - o.q + v ^ 2 / 2) * o.t) /
          (v * Real.sqrt o.t)))) ∧
    (OptionInputs.with_implied_vol E o v).nd2 =
      some (E.cdf (o.sign *
        ((Real.log (o.s / o.k) + (o.r - o.q + v ^ 2 / 2) * o.t) /
          (v * Real.sqrt o.t) - v * Real.sqrt o.t))) ∧
    o.sign = (if o.is_call then 1 else -1) :=
  ⟨rfl, rfl, rfl, rfl, rfl⟩

/-- Claim C10: the forward entry point performs no validation at all on
its argument: for every real `v` (zero and negative values included) it
stores `implied_vol = v` and populates the whole derived state. -/
theorem c10_no_validation_forward (E : Externals) (o : OptionInputs) (v : ℝ) :
    (OptionInputs.with_implied_vol E o v).implied_vol = some v ∧
    ((OptionInputs.with_implied_vol E o v).d1).isSome = true ∧
    ((OptionInputs.with_implied_vol E o v).d2).isSome = true ∧
    ((OptionInputs.with_implied_vol E o v).nd1).isSome = true ∧
    ((OptionInputs.with_implied_vol E o v).nd2).isSome = true ∧
    ((OptionInputs.with_implied_vol E o v).nprimed1).isSome = true ∧
    ((OptionInputs.with_implied_vol E o v).nprimed2).isSome = true ∧
    ((OptionInputs.with_implied_vol E o v).price).isSome = true := by
  refine ⟨rfl, rfl, rfl, rfl, rfl, rfl, rfl, ?_⟩
  cases h : o.price <;> simp [OptionInputs.with_implied_vol, h]

/-- Claim C3: `with_implied_vol` derives the price only when the price
field holds the sentinel — in that case it stores
`black(s*exp((r-q)*t), k, v, t, sign) * rate_discount()` — and leaves an
already-set price untouched (`Option.getD` packages both cases). -/
theorem c3_forward_price_guard (E : Externals) (o : OptionInputs) (v : ℝ) :
    (OptionInputs.with_implied_vol E o v).price =
      some (o.price.getD
        (E.black (o.s * Real.exp ((o.r - o.q) * o.t)) o.k v o.t o.sign *
          o.rate_discount)) := by
  cases h : o.price <;> simp [OptionInputs.with_implied_vol, h]

/-- Claim C9: both conversion-engine operations leave the six contract
parameters exactly as they were (on the reverse path this covers both
the solver-success and the solver-failure branch); the readers are pure
functions in this embedding and cannot mutate anything. -/
theorem c9_params_immutable (E : Externals) (o : OptionInputs) (v p : ℝ) :
    ((OptionInputs.with_implied_vol E o v).is_call = o.is_call ∧
     (OptionInputs.with_implied_vol E o v).s = o.s ∧
     (OptionInputs.with_implied_vol E o v).k = o.k ∧
     (OptionInputs.with_implied_vol E o v).r = o.r ∧
     (OptionInputs.with_implied_vol E o v).q = o.q ∧
     (OptionInputs.with_implied_vol E o v).t = o.t) ∧
    ((OptionInputs.with_price E o p).is_call = o.is_call ∧
     (OptionInputs.with_price E o p).s = o.s ∧
     (OptionInputs.with_price E o p).k = o.k ∧
     (OptionInputs.with_price E o p).r = o.r ∧
     (OptionInputs.with_price E o p).q = o.q ∧
     (OptionInputs.with_price E o p).t = o.t) := by
  refine ⟨⟨rfl, rfl, rfl, rfl, rfl, rfl⟩, ?_⟩
  unfold OptionInputs.with_price
  dsimp only
  split_ifs <;> exact ⟨rfl, rfl, rfl, rfl, rfl, rfl⟩

/-- Claim C2: when the external solver returns a non-positive candidate
volatility, the reverse path is a silent no-op — `with_price` returns
the container with every field unchanged, and the embedding's return
type (the container itself, no error component) reflects that no error
is reported. -/
theorem c2_solver_failure_noop (E : Externals) (o : OptionInputs) (p : ℝ)
    (h : E.implied_volatility_from_a_transformed_rational_guess
      (p * Real.exp (o.r * o.t))
      (o.s * Real.exp (o.r * o.t) * o.dividend_discount)
      o.k o.t o.sign ≤ 0) :
    OptionInputs.with_price E o p = o := by
  unfold OptionInputs.with_price
  exact if_neg (not_lt.mpr h)

/-- Witness for C2 at concrete inputs: `Efail`'s solver returns `0`, so
`with_price` leaves the freshly constructed container untouched. -/
theorem c2_solver_failure_noop_witness :
    Efail.implied_volatility_from_a_transformed_rational_guess
      (1 * Real.exp ((OptionInputs.new true 1 1 1 0 1).r *
        (OptionInputs.new true 1 1 1 0 1).t))
      ((OptionInputs.new true 1 1 1 0 1).s *
        Real.exp ((OptionInputs.new true 1 1 1 0 1).r *
          (OptionInputs.new true 1 1 1 0 1).t) *
        (OptionInputs.new true 1 1 1 0 1).dividend_discount)
      (OptionInputs.new true 1 1 1 0 1).k (OptionInputs.new true 1 1 1 0 1).t
      (OptionInputs.new true 1 1 1 0 1).sign ≤ 0 ∧
    OptionInputs.with_price Efail (OptionInputs.new true 1 1 1 0 1) 1 =
      OptionInputs.new true 1 1 1 0 1 :=
  ⟨le_refl 0, c2_solver_failure_noop Efail (OptionInputs.new true 1 1 1 0 1) 1
    (le_refl 0)⟩

/-- Claim C1 is refuted by the code: on solver success the reverse path
stores the shadowed, undiscounted `p * exp(r*t)`, not the original
caller-supplied `p`. At `s = k = 1`, `r = 1`, `q = 0`, `t = 1` and
observed price `p = 1` (with a solver that returns the positive
undiscounted price itself as candidate volatility) the stored price is
`exp 1 ≈ 2.718`, not the supplied `1`. -/
theorem c1_reverse_path_stores_undiscounted :
    ((OptionInputs.new true 1 1 1 0 1).with_price Eecho 1).price =
      some (Real.exp 1) ∧ Real.exp 1 ≠ (1 : ℝ) := by
  constructor
  · unfold OptionInputs.with_price
    dsimp only [OptionInputs.new, Eecho]
    rw [if_pos (by positivity)]
    simp [OptionInputs.with_implied_vol]
  · intro h
    have h2 := Real.add_one_le_exp (1 : ℝ)
    linarith

/-- Helper: the source constant `SQRT_2PI = 2.5066282` is not exactly
the square root of `2π` — otherwise `π` would equal the rational number
`25066282^2 / (2·10^14)`, contradicting the irrationality of `π`. -/
theorem SQRT_2PI_ne_sqrt_two_pi : SQRT_2PI ≠ Real.sqrt (2 * π) := by
  intro h
  have h2 : SQRT_2PI ^ 2 = 2 * π := by
    rw [h]; exact Real.sq_sqrt (by positivity)
  have hq : ((25066282 ^ 2 / (2 * 10 ^ 14) : ℚ) : ℝ) = SQRT_2PI ^ 2 / 2 := by
    rw [SQRT_2PI]
    push_cast
    norm_num
  exact irrational_pi.ne_rat (25066282 ^ 2 / (2 * 10 ^ 14)) (by linarith)

/-- Helper: the pointwise form of `calculate_npdf`. -/
theorem calculate_npdf_eq (x : ℝ) :
    calculate_npdf x = Real.exp (-x ^ 2 / 2) / SQRT_2PI := by
  unfold calculate_npdf
  congr 2
  ring

/-- Counterexample to claim C6: at `s = k = 1`, `r = q = 0`, `t = 1`,
`v = 1` the stored `d1` is `1/2`, and the stored `nprimed1` is
`exp(-(1/2)^2/2) / 2.5066282`, which differs from the claimed exact
density value `exp(-(1/2)^2/2) / sqrt(2π)`. -/
theorem c6_divisor_not_sqrt_two_pi :
    ((OptionInputs.new true 1 1 0 0 1).with_implied_vol Eecho 1).nprimed1 ≠
      some (Real.exp (-(1 / 2 : ℝ) ^ 2 / 2) / Real.sqrt (2 * π)) := by
  intro h
  have hst : ((OptionInputs.new true 1 1 0 0 1).with_implied_vol Eecho 1).nprimed1
      = some (Real.exp (-(1 / 2 : ℝ) ^ 2 / 2) / SQRT_2PI) := by
    show some (calculate_npdf _) = _
    rw [calculate_npdf_eq]
    norm_num [OptionInputs.new, Real.log_one, Real.sqrt_one]
  rw [hst] at h
  have h2 := Option.some.inj h
  have he : Real.exp (-(1 / 2 : ℝ) ^ 2 / 2) ≠ 0 := Real.exp_ne_zero _
  have hs2 : Real.sqrt (2 * π) ≠ 0 := by positivity
  have hs1 : SQRT_2PI ≠ 0 := by rw [SQRT_2PI]; norm_num
  rw [div_eq_div_iff hs1 hs2] at h2
  exact SQRT_2PI_ne_sqrt_two_pi (mul_left_cancel₀ he h2).symm

/-- Claim C6 as amended: `with_implied_vol` stores
`nprimed1 = exp(-d1^2/2) / SQRT_2PI` and
`nprimed2 = exp(-d2^2/2) / SQRT_2PI`, where `SQRT_2PI` is the source
constant `2.5066282`, an approximation of — but not exactly equal to —
the square root of `2π`. -/
theorem c6_npdf_uses_constant (E : Externals) (o : OptionInputs) (v : ℝ) :
    (OptionInputs.with_implied_vol E o v).nprimed1 =
      some (Real.exp (-((Real.log (o.s / o.k) + (o.r - o.q + v ^ 2 / 2) * o.t) /
        (v * Real.sqrt o.t)) ^ 2 / 2) / SQRT_2PI) ∧
    (OptionInputs.with_implied_vol E o v).nprimed2 =
      some (Real.exp (-((Real.log (o.s / o.k) + (o.r - o.q + v ^ 2 / 2) * o.t) /
        (v * Real.sqrt o.t) - v * Real.sqrt o.t) ^ 2 / 2) / SQRT_2PI) ∧
    SQRT_2PI ≠ Real.sqrt (2 * π) := by
  refine ⟨?_, ?_, SQRT_2PI_ne_sqrt_two_pi⟩
  · show some (calculate_npdf _) = _
    rw [calculate_npdf_eq]
  · show some (calculate_npdf _) = _
    rw [calculate_npdf_eq]

/-- Claim C7: with a cdf satisfying the reflection identity of the
standard normal distribution, a call container and a put container with
identical parameters, both populated by `with_implied_vol(v)`, have
`delta(call) - delta(put) = dividend_discount()`. -/
theorem c7_delta_parity (E : Externals) (hsym : ∀ x, E.cdf (-x) + E.cdf x = 1)
    (s k r q t v : ℝ) (hs : 0 < s) (hk : 0 < k) (ht : 0 < t) (hv : 0 < v) :
    ∃ dc dp,
      ((OptionInputs.new true s k r q t).with_implied_vol E v).delta = some dc ∧
      ((OptionInputs.new false s k r q t).with_implied_vol E v).delta = some dp ∧
      dc - dp = (OptionInputs.new true s k r q t).dividend_discount := by
  refine ⟨E.cdf ((Real.log (s / k) + (r - q + v ^ 2 / 2) * t) / (v * Real.sqrt t)) *
      Real.exp (-q * t),
    -(E.cdf (-((Real.log (s / k) + (r - q + v ^ 2 / 2) * t) / (v * Real.sqrt t))) *
      Real.exp (-q * t)), ?_, ?_, ?_⟩
  · norm_num [OptionInputs.new, OptionInputs.with_implied_vol, OptionInputs.delta,
      OptionInputs.sign, OptionInputs.dividend_discount]
  · norm_num [OptionInputs.new, OptionInputs.with_implied_vol, OptionInputs.delta,
      OptionInputs.sign, OptionInputs.dividend_discount]
  · have h := hsym ((Real.log (s / k) + (r - q + v ^ 2 / 2) * t) / (v * Real.sqrt t))
    simp only [OptionInputs.new, OptionInputs.dividend_discount]
    linear_combination Real.exp (-q * t) * h

/-- Witness for C7 at concrete inputs, with the constant one-half cdf. -/
theorem c7_delta_parity_witness :
    (∀ x, Eecho.cdf (-x) + Eecho.cdf x = 1) ∧ (0 : ℝ) < 1 ∧
    ∃ dc dp,
      ((OptionInputs.new true 1 1 0 0 1).with_implied_vol Eecho 1).delta = some dc ∧
      ((OptionInputs.new false 1 1 0 0 1).with_implied_vol Eecho 1).delta = some dp ∧
      dc - dp = (OptionInputs.new true 1 1 0 0 1).dividend_discount :=
  ⟨fun _ => add_halves 1, one_pos,
    c7_delta_parity Eecho (fun _ => add_halves 1) 1 1 0 0 1 1
      one_pos one_pos one_pos one_pos⟩

/-- Claim C5: under the spec-modelled exact solver contract, pricing
forward from a volatility and then recovering the volatility from that
price via the reverse path stores an implied volatility within `1e-6`
of the original (here: exactly the original). -/
theorem c5_round_trip (E : Externals) (hE : SolverInverts E) (c : Bool)
    (s k r q t vol : ℝ) (hs : 0 < s) (hk : 0 < k) (ht : 0 < t) (hv : 0 < vol) :
    ∃ p w,
      ((OptionInputs.new c s k r q t).with_implied_vol E vol).price = some p ∧
      ((OptionInputs.new c s k r q t).with_price E p).implied_vol = some w ∧
      |w - vol| ≤ 1 / 1000000 := by
  refine ⟨E.black (s * Real.exp ((r - q) * t)) k vol t
      ((OptionInputs.new c s k r q t).sign) * Real.exp (-r * t), vol,
    rfl, ?_, by rw [sub_self, abs_zero]; norm_num⟩
  unfold OptionInputs.with_price
  dsimp only [OptionInputs.new, OptionInputs.dividend_discount]
  rw [mul_assoc (E.black _ _ _ _ _), ← Real.exp_add]
  rw [mul_assoc s, ← Real.exp_add]
  have h1 : -r * t + r * t = 0 := by ring
  have h2 : r * t + -q * t = (r - q) * t := by ring
  rw [h1, h2, Real.exp_zero, mul_one]
  rw [hE (s * Real.exp ((r - q) * t)) k vol t _ hv]
  rw [if_pos hv]
  rfl

/-- Witness for C5 at concrete inputs: `Eecho`'s solver exactly inverts
its pricer, and the round trip at unit parameters recovers the
volatility `1`. -/
theorem c5_round_trip_witness :
    SolverInverts Eecho ∧ (0 : ℝ) < 1 ∧
    ∃ p w,
      ((OptionInputs.new true 1 1 0 0 1).with_implied_vol Eecho 1).price = some p ∧
      ((OptionInputs.new true 1 1 0 0 1).with_price Eecho p).implied_vol = some w ∧
      |w - 1| ≤ 1 / 1000000 :=
  ⟨fun _ _ _ _ _ _ => rfl, one_pos,
    c5_round_trip Eecho (fun _ _ _ _ _ _ => rfl) true 1 1 0 0 1 1
      one_pos one_pos one_pos one_pos⟩

/-- Helper: dividing anything by NaN yields NaN. -/
theorem F64.div_nan (a : F64) : F64.div a F64.nan = F64.nan := by
  cases a <;> rfl

/-- Helper: dividing any `F64` value by the finite value `0` never
yields a finite value (IEEE gives a signed infinity or NaN). -/
theorem F64.isFinite_div_zero (a : F64) :
    (F64.div a (F64.fin 0)).isFinite = false := by
  cases a with
  | nan => rfl
  | pinf =>
    show (if (0 : ℝ) ≤ 0 then F64.pinf else F64.ninf).isFinite = false
    rw [if_pos le_rfl]; rfl
  | ninf =>
    show (if (0 : ℝ) ≤ 0 then F64.ninf else F64.pinf).isFinite = false
    rw [if_pos le_rfl]; rfl
  | fin x =>
    show (if (0 : ℝ) = 0 then
        (if x = 0 then F64.nan else if 0 < x then F64.pinf else F64.ninf)
      else F64.fin (x / 0)).isFinite = false
    rw [if_pos rfl]
    split_ifs <;> rfl

/-- Counterexample to claim C8: a populated container whose stored price
is zero and whose delta is the positive value `1` has
`lambda = +infinity`, which is not the not-a-number sentinel. -/
theorem c8_zero_price_gives_pinf :
    o_zero_price.lambda = F64.pinf ∧ F64.pinf ≠ F64.nan := by
  constructor
  · have ha : (0 : ℝ) < 1 * 1 * Real.exp (-0 * 1) * 1 := by positivity
    have hr : o_zero_price.lambda
        = F64.div (F64.fin (1 * 1 * Real.exp (-0 * 1) * 1)) (F64.fin 0) := rfl
    rw [hr]
    show (if (0 : ℝ) = 0 then
        (if 1 * 1 * Real.exp (-0 * 1) * 1 = 0 then F64.nan
         else if 0 < 1 * 1 * Real.exp (-0 * 1) * 1 then F64.pinf else F64.ninf)
      else F64.fin (1 * 1 * Real.exp (-0 * 1) * 1 / 0)) = F64.pinf
    rw [if_pos rfl, if_neg ha.ne', if_pos ha]
  · exact fun h => F64.noConfusion h

/-- Claim C8 as amended: `lambda` is the IEEE evaluation of
`delta() * s / price`; whenever the price is unset (the NaN sentinel)
the result is NaN, and whenever the price is zero the result is
non-finite (a signed infinity, or NaN when `delta * s` is zero or NaN)
— but not necessarily NaN. -/
theorem c8_lambda_sentinel (o : OptionInputs)
    (h : o.price = none ∨ o.price = some 0) :
    o.lambda = F64.div (F64.mul o.deltaF (F64.fin o.s)) o.priceF ∧
    (o.lambda).isFinite = false ∧
    (o.price = none → o.lambda = F64.nan) := by
  refine ⟨rfl, ?_, ?_⟩
  · rcases h with h | h
    · have hp : o.priceF = F64.nan := by simp [OptionInputs.priceF, h]
      unfold OptionInputs.lambda
      rw [hp, F64.div_nan]
      rfl
    · have hp : o.priceF = F64.fin 0 := by simp [OptionInputs.priceF, h]
      unfold OptionInputs.lambda
      rw [hp]
      exact F64.isFinite_div_zero _
  · intro h0
    have hp : o.priceF = F64.nan := by simp [OptionInputs.priceF, h0]
    unfold OptionInputs.lambda
    rw [hp, F64.div_nan]

/-- Witness for the amended C8 at a concrete input: a freshly
constructed container has an unset price and a non-finite lambda. -/
theorem c8_lambda_sentinel_witness :
    ((OptionInputs.new true 1 1 0 0 1).price = none ∨
      (OptionInputs.new true 1 1 0 0 1).price = some 0) ∧
    ((OptionInputs.new true 1 1 0 0 1).lambda.isFinite = false) :=
  ⟨Or.inl rfl,
    (c8_lambda_sentinel (OptionInputs.new true 1 1 0 0 1) (Or.inl rfl)).2.1⟩
